import Mathlib

/-!
Shallow embedding of src/lint/linter.py (SublimeLinter3).

The embedding models the Python data the module manipulates (None / str / int
values, truthiness, dict-with-update semantics) and the methods of class
Linter that the verified claims are about: split_match, find_errors, lint
(including the tab-width column correction), lint_view, assign,
linter_can_lint and get_settings.

External collaborators that are not part of this repository's core (the
sublime API, util.communicate, the persist module's storage) are passed in as
explicit parameters; the Highlight class lives in a file that is not part of
the extracted source, so the single fact needed from it (full_line) is
modelled from the specification and marked as such.

Python exceptions are modelled by Option / explicit outcome values: a function
that would raise returns none (or a dedicated raised-outcome constructor).
-/

/-- Python values as they occur in this module: None, strings and ints. -/
inductive PyVal
  | vNone
  | vStr (s : String)
  | vInt (n : Int)
deriving DecidableEq

/-- Python truthiness for the modelled values: None is falsy, a string is
truthy iff non-empty, an int is truthy iff non-zero. -/
def pyTruthy : PyVal → Bool
  | .vNone => false
  | .vStr s => s != ""
  | .vInt n => n != 0

/-- Python str(x) for the modelled values (str(None) is the text None). -/
def pyStr : PyVal → String
  | .vNone => "None"
  | .vStr s => s
  | .vInt n => toString n

/-- Whitespace in the sense of Python str.strip(). -/
def isPySpace (c : Char) : Bool :=
  c == ' ' || c == '\t' || c == '\n' || c == '\r' || c == '\x0b' || c == '\x0c'

/-- Python strip over a character list: whitespace removed from both ends. -/
def pyStripList (cs : List Char) : List Char :=
  ((cs.dropWhile isPySpace).reverse.dropWhile isPySpace).reverse

/-- Python int(s) on a string: surrounding whitespace is trimmed, an optional
sign is allowed, the rest must be decimal digits; anything else raises
ValueError, modelled as none. -/
def pyParseInt? (s : String) : Option Int :=
  match pyStripList s.toList with
  | [] => none
  | c :: rest =>
    let neg := c == '-'
    let core := if c == '-' || c == '+' then rest else c :: rest
    if !core.isEmpty && core.all Char.isDigit then
      let n : Nat := core.foldl (fun a d => a * 10 + (d.toNat - 48)) 0
      some (if neg then -(n : Int) else (n : Int))
    else none

/-- Python int(x) on a modelled value: int(None) raises TypeError (none),
int on a string parses it, an int is returned unchanged. -/
def pyIntOf : PyVal → Option Int
  | .vNone => none
  | .vStr s => pyParseInt? s
  | .vInt n => some n

/-- The groupdict of a regex match object: each named group of the pattern is
a key; a group that did not participate in the match has value None. -/
abbrev Groupdict := List (String × PyVal)

/-- Dict lookup with a default, as used after
items.update(match.groupdict()): a key present in the groupdict overrides the
default in items. Regex group names are unique within one pattern, so the
first hit is the only hit. -/
def lookupDefault (gd : Groupdict) (k : String) (dflt : PyVal) : PyVal :=
  match gd.find? (fun p => p.1 == k) with
  | some p => p.2
  | none => dflt

/-- The tuple returned by Linter.split_match: either the None-match tuple
(match, None, None, None, the empty string, None) or a tuple for a real match,
in which row is already the 0-based int and col is either a converted int, or
None, or an empty string (the only non-converted string col that survives the
truthiness test). -/
inductive SplitResult
  | noMatch
  | matched (row : Int) (col : PyVal) (etype : PyVal) (error : PyVal) (near : PyVal)
deriving DecidableEq

/-- The error slot of a split_match tuple (the fifth component in the source;
the empty string in the None-match tuple). -/
def errField : SplitResult → PyVal
  | .noMatch => .vStr ""
  | .matched _ _ _ e _ => e

/-- Linter.split_match. items starts as the five defaults (line, col, type
and near default to None, error defaults to the empty string) and is updated
with the whole groupdict; row is int(items of line) minus 1, which raises when
the line value is None or non-numeric (result none); a truthy col string is
converted the same way. -/
def split_match (m : Option Groupdict) : Option SplitResult :=
  match m with
  | none => some .noMatch
  | some gd =>
    let line := lookupDefault gd "line" .vNone
    let col := lookupDefault gd "col" .vNone
    let etype := lookupDefault gd "type" .vNone
    let error := lookupDefault gd "error" (.vStr "")
    let near := lookupDefault gd "near" .vNone
    match pyIntOf line with
    | none => none
    | some n =>
      if pyTruthy col then
        match pyIntOf col with
        | none => none
        | some c => some (.matched (n - 1) (.vInt (c - 1)) etype error near)
      else
        some (.matched (n - 1) col etype error near)

/-- A compiled regex object, abstracted by its two uses in the source:
finditer over a text (the list of match groupdicts, in order of occurrence)
and match against one line (anchored at the start, none when it fails). -/
structure CompiledRegex where
  finditer : String → List Groupdict
  matchS : String → Option Groupdict

/-- Python truthiness of the iterator object returned by re.finditer: an
iterator has no len or bool, so it is truthy even when it yields nothing. -/
def iterTruthy (_ : List Groupdict) : Bool := true

/-- Python str.splitlines restricted to the line breaks the claims exercise:
a newline, a carriage return, or the pair of both; no trailing empty line for
a terminal break. (The exotic unicode breaks Python also recognises are not
modelled; no claim depends on them.) -/
def splitlinesAux : List Char → List Char → List (List Char)
  | acc, [] => if acc.isEmpty then [] else [acc.reverse]
  | acc, '\r' :: '\n' :: rest => acc.reverse :: splitlinesAux [] rest
  | acc, '\n' :: rest => acc.reverse :: splitlinesAux [] rest
  | acc, '\r' :: rest => acc.reverse :: splitlinesAux [] rest
  | acc, c :: rest => splitlinesAux (c :: acc) rest

/-- Python output.splitlines() over the modelled line breaks. -/
def pySplitlines (s : String) : List String :=
  (splitlinesAux [] s.toList).map String.mk

/-- Python line.strip(): whitespace removed from both ends. -/
def pyStrip (s : String) : String := String.mk (pyStripList s.toList)

/-- Linter.find_errors. In the multiline branch the source tests the
finditer iterator for truthiness before looping; an iterator object is always
truthy, so the else-branch that would yield split_match(None) on zero matches
is unreachable. In the per-line branch each stripped line is matched and the
(possibly failing) match is split. Each yielded element is an Option because
split_match can raise during iteration. -/
def find_errors (multi : Bool) (r : CompiledRegex) (output : String) :
    List (Option SplitResult) :=
  if multi then
    let errors := r.finditer output
    if iterTruthy errors then errors.map (fun gd => split_match (some gd))
    else [split_match none]
  else
    (pySplitlines output).map (fun line => split_match (r.matchS (pyStrip line)))

/-- The column-correction loop in Linter.lint (the body of the
for i in range(len(code_line)) loop): diff accumulates tab_width minus 1 for
every tab seen so far, including a tab at the current index, and the loop
breaks with col set to the first index i at which col minus diff is at most i;
when it never breaks, col is left unchanged. -/
def tab_adjust (tw : Nat) : List Char → Nat → Nat → Int → Int
  | [], _, _, col => col
  | c :: rest, i, diff, col =>
    let d := if c = '\t' then diff + (tw - 1) else diff
    if col - (d : Int) ≤ (i : Int) then (i : Int)
    else tab_adjust tw rest (i + 1) d col

/-- The whole correction as guarded in Linter.lint: it runs only when
tab_width exceeds 1, over the characters of the reported row's line. -/
def correct_col (tw : Nat) (line : String) (col : Int) : Int :=
  if 1 < tw then tab_adjust tw line.toList 0 0 col else col

/-- Number of tab characters in a list of characters. -/
def countTabs (cs : List Char) : Nat := (cs.filter (fun c => c = '\t')).length

/-- Specification reading of the correction (section 4.2 of the spec, quoted
by claim C2): the corrected column is the first character index i such that
rawColumn minus the expansion delta accumulated over the characters up to and
including index i is at most i; with no such index the column is unchanged,
and with declaredTabWidth at most 1 no correction happens. Stated
declaratively with find? over all indices, to be compared with the source's
loop correct_col. -/
def correctColumn_spec (tw : Nat) (line : String) (col : Int) : Int :=
  if 1 < tw then
    match (List.range line.toList.length).find? (fun i =>
        decide (col - ((tw - 1 : Nat) : Int) * (countTabs (line.toList.take (i + 1)) : Int)
          ≤ (i : Int))) with
    | some i => (i : Int)
    | none => col
  else col

/-- One diagnostic entry as stored by Linter.error: a column (col or 0) and
the str of the message. -/
abbrev ErrEntry := Int × String

/-- The errors attribute: a dict from row to the ordered list of entries,
modelled as an association list in Python dict insertion order. -/
abbrev ErrMap := List (Int × List ErrEntry)

/-- Python dict assignment d[k] = v: overwrite in place when the key exists,
append otherwise. -/
def dictSet (m : ErrMap) (k : Int) (v : List ErrEntry) : ErrMap :=
  if m.any (fun p => p.1 == k) then
    m.map (fun p => if p.1 == k then (k, v) else p)
  else m ++ [(k, v)]

/-- Linter.error: append (col or 0, str(error)) to the row's list, creating
the list when the row is new. -/
def addError (m : ErrMap) (row : Int) (e : ErrEntry) : ErrMap :=
  if m.any (fun p => p.1 == row) then
    m.map (fun p => if p.1 == row then (p.1, p.2 ++ [e]) else p)
  else m ++ [(row, [e])]

/-- Python (col or 0) after split_match: an int stays itself (0 or 0 is 0),
None and the empty string fall back to 0. A non-empty string column cannot
reach this point, because split_match converts every truthy col. -/
def pyColOr0 : PyVal → Int
  | .vInt c => c
  | _ => 0

/-- Modelled from the spec: Highlight.full_line lives in lint/highlight.py,
which is not under src; per section 4.2 the correction walks the text of the
reported line, so the source's code slice between the full_line bounds of row
is modelled as the row-th line of the code (empty for an out-of-range or
negative row). -/
def getLine (code : String) (row : Int) : String :=
  if row < 0 then "" else (pySplitlines code).getD row.toNat ""

/-- The body of the result loop in Linter.lint for one yielded tuple: a
None match records nothing; a real match with a non-None col runs the
tab-width correction first (raising, result none, when col survived as a
string and tab_width exceeds 1, since col minus diff mixes str and int), then
Linter.error appends (col or 0, str(error)) under row. -/
def record_error (tw : Nat) (code : String) (acc : ErrMap) :
    SplitResult → Option ErrMap
  | .noMatch => some acc
  | .matched row col _etype error _near =>
    if col != .vNone then
      if 1 < tw then
        match col with
        | .vInt c =>
          let c' := tab_adjust tw (getLine code row).toList 0 0 c
          some (addError acc row (pyColOr0 (.vInt c'), pyStr error))
        | _ => none
      else some (addError acc row (pyColOr0 col, pyStr error))
    else some (addError acc row (0, pyStr error))

/-- The result loop of Linter.lint over the sequence produced by
find_errors, threading the in-place updates of self.errors and stopping at
the first raising element (true in the second component); updates made before
the raise are kept, as they are in the mutated Python dict. -/
def processAll (tw : Nat) (code : String) : ErrMap → List (Option SplitResult) →
    ErrMap × Bool
  | acc, [] => (acc, false)
  | acc, none :: _ => (acc, true)
  | acc, some r :: rest =>
    match record_error tw code acc r with
    | none => (acc, true)
    | some acc' => processAll tw code acc' rest

/-- The cmd attribute value before the callable test: a string or a
tuple-or-list of strings. -/
inductive CmdVal
  | s (x : String)
  | l (xs : List String)
deriving DecidableEq

/-- The duck-typed cmd attribute: a plain value or a callable producing one. -/
inductive CmdAttr
  | val (v : CmdVal)
  | fn (f : Unit → CmdVal)

/-- Python truthiness of a cmd value: empty string and empty tuple are falsy. -/
def cmdValTruthy : CmdVal → Bool
  | .s x => x != ""
  | .l xs => !xs.isEmpty

/-- Python truthiness of the cmd attribute: a callable object is truthy. -/
def cmdAttrTruthy : CmdAttr → Bool
  | .val v => cmdValTruthy v
  | .fn _ => true

/-- cmd resolution in Linter.lint: call it when callable, use it directly
otherwise. -/
def resolveCmd : CmdAttr → CmdVal
  | .val v => v
  | .fn f => f ()

/-- The tuple normalisation in Linter.lint: a bare string becomes a
one-element tuple. -/
def cmdToList : CmdVal → List String
  | .s x => [x]
  | .l xs => xs

/-- The regex attribute after Linter.init: a compiled pattern object, or
still the raw pattern string when the attribute was empty or compilation
failed. -/
inductive RegexAttr
  | compiled (r : CompiledRegex)
  | raw (src : String)

/-- Python truthiness of the regex attribute: a compiled pattern object is
truthy, a leftover string is truthy iff non-empty. -/
def regexTruthy : RegexAttr → Bool
  | .compiled _ => true
  | .raw s => s != ""

/-- The regex handling in Linter.init: an empty pattern is left alone; a
non-empty pattern is compiled, and on failure (the except branch) a debug log
entry is recorded and the attribute keeps the raw string. The second
component records whether the debug log was written. re.compile itself is
outside the model, so its result is a parameter: some compiled object on
success, none on failure. -/
def init_regex (src : String) (compiledRes : Option CompiledRegex) :
    RegexAttr × Bool :=
  if src == "" then (.raw src, false)
  else
    match compiledRes with
    | some r => (.compiled r, false)
    | none => (.raw src, true)

/-- The possible control-flow outcomes of one Linter.lint call. -/
inductive LintOutcome
  | raisedNotImplemented
  | skippedNoCmd
  | skippedNoOutput
  | raisedAttributeError
  | raisedProcessing
  | completed
deriving DecidableEq

/-- Outcomes that are propagating Python exceptions. -/
def isRaise : LintOutcome → Bool
  | .raisedNotImplemented => true
  | .raisedAttributeError => true
  | .raisedProcessing => true
  | _ => false

/-- One linter instance as lint and lint_view see it: the class attributes
that drive lint, the effective disable setting, the selector, and the mutable
code and errors fields. The run collaborator (util.communicate) is passed
separately. -/
structure LinterV where
  name : String
  disable : Bool
  sel : Option String
  language : String
  cmdA : CmdAttr
  regexA : RegexAttr
  multiline : Bool
  tab_width : Nat
  code : String
  errors : ErrMap

/-- Linter.lint: raise NotImplementedError unless language, cmd and regex
are all truthy; resolve cmd and return silently when it is empty; run the
command on the code and return silently on empty output; with a leftover raw
regex string the finditer / match attribute access raises; otherwise extract,
correct and record every match, raising when split_match or the string-column
correction raises. Returns the outcome and the final errors field. -/
def lintRun (l : LinterV) (run : List String → String → String) :
    LintOutcome × ErrMap :=
  if !(l.language != "" && cmdAttrTruthy l.cmdA && regexTruthy l.regexA) then
    (.raisedNotImplemented, l.errors)
  else
    let cmd := resolveCmd l.cmdA
    if !cmdValTruthy cmd then (.skippedNoCmd, l.errors)
    else
      let output := run (cmdToList cmd) l.code
      if output == "" then (.skippedNoOutput, l.errors)
      else
        match l.regexA with
        | .raw _ => (.raisedAttributeError, l.errors)
        | .compiled r =>
          let res := processAll l.tab_width l.code l.errors
            (find_errors l.multiline r output)
          (if res.2 then .raisedProcessing else .completed, res.1)

/-- Python code[left:right] on character offsets, clamped as Python slicing
clamps non-negative bounds. -/
def pySlice (s : String) (left right : Nat) : String :=
  String.mk ((s.toList.drop left).take (right - left))

/-- Truthiness of the selector attribute, as tested by both
if not linter.selector and get_selectors: None and the empty string are
falsy. -/
def selTruthy : Option String → Bool
  | none => false
  | some s => s != ""

/-- The selector string of a linter known to have one (getD only feeds the
find? key and is never reached for a truthy selector being none). -/
def selName (o : Option String) : String := o.getD ""

/-- One region of a scoped section: line offset, start offset, end offset. -/
abbrev Region := Int × Nat × Nat

/-- Linter.reset as called from lint_view: clear the errors dict and rebind
the working text (the fresh Highlight accumulator is outside the model). -/
def resetL (code : String) (l : LinterV) : LinterV :=
  { l with errors := [], code := code }

/-- The first loop of Linter.lint_view: every disabled linter is skipped by
the continue, every whole-buffer linter (falsy selector) is reset and run, and
an exception propagating out of a run aborts the pass, leaving the remaining
linters untouched (second component true). -/
def pass1 (run : List String → String → String) (code : String) :
    List LinterV → List LinterV × Bool
  | [] => ([], false)
  | l :: rest =>
    if l.disable then
      let r := pass1 run code rest
      (l :: r.1, r.2)
    else if selTruthy l.sel then
      let r := pass1 run code rest
      (l :: r.1, r.2)
    else
      let res := lintRun (resetL code l) run
      let l' := { resetL code l with errors := res.2 }
      if isRaise res.1 then (l' :: rest, true)
      else
        let r := pass1 run code rest
        (l' :: r.1, r.2)

/-- The region loop of Linter.lint_view for one scoped linter: each region
slices the code, clears the errors dict, runs lint, and writes each produced
row into the accumulator shifted by the region's line offset (plain dict
assignment, so a later region overwrites an earlier one on the same shifted
row). Returns the linter's final errors field: the merged accumulator after a
full loop, or the partial errors of the raising region together with the abort
flag. -/
def lintRegions (run : List String → String → String) (l0 : LinterV)
    (code : String) : List Region → ErrMap → ErrMap × Bool
  | [], acc => (acc, false)
  | (off, left, right) :: rest, acc =>
    let lr := { l0 with code := pySlice code left right, errors := [] }
    let res := lintRun lr run
    if isRaise res.1 then (res.2, true)
    else
      lintRegions run l0 code rest
        (res.2.foldl (fun a p => dictSet a (p.1 + off) p.2) acc)

/-- The second loop of Linter.lint_view, over the linters with a truthy
selector: when the selector has an entry in sections the linter is reset and
its regions are run and merged — with no disable check in this loop; an
exception aborts the pass as in pass1. -/
def pass2 (run : List String → String → String)
    (sections : List (String × List Region)) (code : String) :
    List LinterV → List LinterV × Bool
  | [] => ([], false)
  | l :: rest =>
    if selTruthy l.sel then
      match sections.find? (fun p => p.1 == selName l.sel) with
      | some pr =>
        let l0 := resetL code l
        let res := lintRegions run l0 code pr.2 []
        let l' := { l0 with errors := res.1 }
        if res.2 then (l' :: rest, true)
        else
          let r := pass2 run sections code rest
          (l' :: r.1, r.2)
      | none =>
        let r := pass2 run sections code rest
        (l :: r.1, r.2)
    else
      let r := pass2 run sections code rest
      (l :: r.1, r.2)

/-- Linter.lint_view: nothing happens on empty code or an empty linter set;
otherwise the whole-buffer loop runs first and, when no exception escaped it,
the selector loop runs (the callback hand-off is outside the model). -/
def lint_view (run : List String → String → String)
    (sections : List (String × List Region)) (code : String)
    (linters : List LinterV) : List LinterV :=
  if code == "" || linters.isEmpty then linters
  else
    let p1 := pass1 run code linters
    if p1.2 then p1.1 else (pass2 run sections code p1.1).1

/-- The declared language attribute of a linter class: one string or a
tuple-or-list of strings. -/
inductive LangAttr
  | single (s : String)
  | multi (xs : List String)
deriving DecidableEq

/-- Python str.lower over the ascii letters the source compares. -/
def pyLower (s : String) : String := String.mk (s.toList.map Char.toLower)

/-- Linter.linter_can_lint: the incoming syntax name is lowercased, the
declared attribute is not; an empty string or empty tuple declaration is falsy
and never matches; a single declaration is compared by equality and a
tuple-or-list declaration by membership. -/
def linter_can_lint (clsLang : LangAttr) (language : String) : Bool :=
  let lang := pyLower language
  match clsLang with
  | .single s => s != "" && lang == s
  | .multi xs => !xs.isEmpty && xs.contains lang

/-- A registered linter class, as persist.languages stores it: its name and
declared language attribute. -/
structure RegCls where
  name : String
  lang : LangAttr
deriving DecidableEq

/-- One linter instance as the assignment map stores it: an identity (the
Python object identity), the class it was built from, and the syntax recorded
at construction. -/
structure LinterInst where
  instId : Nat
  clsName : String
  syn : String
deriving DecidableEq

/-- The persist.linters map from view id to its set of linter instances,
modelled as an association list in insertion order. -/
abbrev LintersMap := List (Nat × List LinterInst)

/-- Lookup of persist.linters for one view id. -/
def lookupVid (m : LintersMap) (vid : Nat) : Option (List LinterInst) :=
  (m.find? (fun p => p.1 == vid)).map (fun p => p.2)

/-- Python dict assignment persist.linters[vid] = s. -/
def setVid (m : LintersMap) (vid : Nat) (v : List LinterInst) : LintersMap :=
  if m.any (fun p => p.1 == vid) then
    m.map (fun p => if p.1 == vid then (vid, v) else p)
  else m ++ [(vid, v)]

/-- Linter.remove: the per-instance highlight clearing is outside the model;
the map entry is deleted. -/
def removeVid (m : LintersMap) (vid : Nat) : LintersMap :=
  m.filter (fun p => p.1 != vid)

/-- The SYNTAX_RE search of Linter.assign: the pattern matches a final path
segment before the tmLanguage suffix, so the resolved syntax is the text
between the last slash and that suffix, and resolution yields the empty
string when the label does not end in the suffix, contains no slash before
it, or has an empty segment. -/
def resolveSyn (s : String) : String :=
  let suffix := ".tmLanguage".toList
  let cs := s.toList
  if suffix.isSuffixOf cs then
    let stem := cs.take (cs.length - suffix.length)
    if stem.contains '/' then
      String.mk ((stem.reverse.takeWhile (fun c => c != '/')).reverse)
    else ""
  else ""

/-- Linter.assign. The syntax view setting is resolved; a falsy setting or a
failed resolution removes the view's entry; otherwise, when the view already
has a non-empty instance set, reassign was not requested and some instance
records the resolved syntax, the method returns leaving the map unchanged;
otherwise a fresh instance is built for every registered class whose language
matches and the view's entry is replaced. Fresh object identities are drawn
from the fresh counter. (The persist.views update is outside the claims.) -/
def assign (languages : List RegCls) (m : LintersMap) (vid : Nat)
    (syntaxSetting : Option String) (reassign : Bool) (fresh : Nat) : LintersMap :=
  match syntaxSetting with
  | none => removeVid m vid
  | some s0 =>
    if s0 == "" then removeVid m vid
    else
      let syn := resolveSyn s0
      if syn != "" then
        let existing := (lookupVid m vid).getD []
        if !existing.isEmpty && !reassign
            && existing.any (fun l => l.syn == syn) then m
        else
          let matching := languages.filter (fun c => linter_can_lint c.lang syn)
          let fresh' := matching.enum.map
            (fun p => LinterInst.mk (fresh + p.1) (p.2).name syn)
          setVid m vid fresh'
      else removeVid m vid

/-- A settings dict, modelled as an association list of string keys and
values in insertion order. -/
abbrev SDict := List (String × String)

/-- Python dict assignment for settings dicts. -/
def sdictSet (m : SDict) (k v : String) : SDict :=
  if m.any (fun p => p.1 == k) then
    m.map (fun p => if p.1 == k then (k, v) else p)
  else m ++ [(k, v)]

/-- Python d.update(u) for settings dicts. -/
def sdictUpdate (d u : SDict) : SDict :=
  u.foldl (fun acc p => sdictSet acc p.1 p.2) d

/-- The user settings for one linter name: persist.settings linters entry,
defaulting to a fresh empty dict. -/
def userSettingsFor (linters : List (String × SDict)) (clsName : String) : SDict :=
  ((linters.find? (fun p => p.1 == clsName)).map (fun p => p.2)).getD []

/-- Linter.get_settings. settings is cls.defaults or a fresh empty dict;
because a non-empty defaults dict is truthy, settings then aliases the class
attribute and the update writes through it, while None or an empty defaults
dict yields a fresh dict and the attribute is untouched. Returns the settings
dict handed back and the class defaults attribute after the call. -/
def get_settings (defaults : Option SDict) (linters : List (String × SDict))
    (clsName : String) : SDict × Option SDict :=
  let user := userSettingsFor linters clsName
  match defaults with
  | some d =>
    if !d.isEmpty then
      let merged := sdictUpdate d user
      (merged, some merged)
    else (sdictUpdate [] user, some d)
  | none => (sdictUpdate [] user, none)

/-! Concrete objects used by the counterexample and witness theorems. -/

/-- A compiled pattern with zero occurrences in every output. -/
def emptyRegex : CompiledRegex := ⟨fun _ => [], fun _ => none⟩

/-- Groupdict of the first of two occurrences. -/
def gdC1a : Groupdict := [("line", .vStr "1"), ("error", .vStr "e1")]

/-- Groupdict of the second of two occurrences. -/
def gdC1b : Groupdict := [("line", .vStr "2"), ("error", .vStr "e2")]

/-- A compiled pattern with exactly two occurrences, in document order. -/
def twoRegex : CompiledRegex := ⟨fun _ => [gdC1a, gdC1b], fun _ => none⟩

/-- Groupdict produced by the scoped linter's pattern in the C3 scenario. -/
def exGd3 : Groupdict := [("line", .vStr "2"), ("col", .vStr "3"), ("error", .vStr "msg")]

/-- The scoped linter's compiled pattern in the C3 scenario. -/
def exRegex3 : CompiledRegex := ⟨fun _ => [exGd3], fun _ => none⟩

/-- A run collaborator that always produces the same non-empty output. -/
def exRun3 : List String → String → String := fun _ _ => "out"

/-- A disabled selector-scoped linter with one seeded diagnostic. -/
def exL3 : LinterV :=
  ⟨"php", true, some "s", "php", .val (.s "c"), .compiled exRegex3, true, 1, "",
    [(0, [(0, "old")])]⟩

/-- Sections carrying one region for the selector of exL3. -/
def exSecs3 : List (String × List Region) := [("s", [((0 : Int), 0, 3)])]

/-- A disabled whole-buffer linter with one seeded diagnostic. -/
def exL3b : LinterV :=
  ⟨"py", true, none, "py", .val (.s "c"), .compiled exRegex3, true, 1, "",
    [(5, [(0, "seed")])]⟩

/-- A linter whose pattern failed to compile: the regex attribute kept the
raw string. -/
def exL4 : LinterV :=
  ⟨"bad", false, none, "x", .val (.s "c"), .raw "(", true, 1, "code", []⟩

/-- A linter with an empty language attribute. -/
def exL5 : LinterV :=
  ⟨"c5", false, none, "", .val (.s "c"), .raw "r", false, 1, "", [(1, [(0, "e")])]⟩

/-- A linter whose callable cmd resolves to an empty command. -/
def exL5f : LinterV :=
  ⟨"c5f", false, none, "x", .fn (fun _ => .s ""), .compiled emptyRegex, false, 1, "",
    [(1, [(0, "e")])]⟩

/-- An instance recording the syntax python for view 1. -/
def exInst6 : LinterInst := ⟨7, "PyL", "python"⟩

/-- An assignment map holding that instance for view 1. -/
def exMap6 : LintersMap := [(1, [exInst6])]

/-- Groupdict of a successful match whose error group did not participate. -/
def exGd8 : Groupdict := [("line", .vStr "3"), ("error", .vNone)]

/-! Theorems. -/

/-- C1: in multiline mode extraction yields one RawMatch per pattern
occurrence, in order of occurrence; but on zero occurrences it yields nothing
at all instead of the single empty RawMatch the specification requires. The
truthiness test if errors on the finditer iterator is always true, so the
else-branch written to yield split_match(None) is dead code — the source's
own dead branch shows the spec states the intent and the test is the slip. -/
theorem find_errors_multiline_zero_gap :
    find_errors true twoRegex "e1 e2" =
      [some (.matched 0 .vNone .vNone (.vStr "e1") .vNone),
       some (.matched 1 .vNone .vNone (.vStr "e2") .vNone)] ∧
    find_errors true emptyRegex "no occurrence here" = [] ∧
    (find_errors true emptyRegex "no occurrence here").length ≠ 1 := by
  refine ⟨by decide, rfl, by decide⟩

/-- C7 counterexample: a declared language written as Python is matched
neither by the identical buffer syntax nor by its lowercase form, because
only the buffer side is lowercased — matching is not case-insensitive in the
declared value, contrary to the claim. -/
theorem can_lint_declared_case_mismatch :
    linter_can_lint (.single "Python") "Python" = false ∧
    linter_can_lint (.single "Python") "python" = false ∧
    linter_can_lint (.multi ["Python"]) "python" = false := by decide

/-- C7 amended: matching lowercases only the buffer syntax, so it is
case-insensitive in the buffer syntax alone: every case variant of the buffer
syntax matches a declared language written in lowercase, both for a single
string and for a tuple-or-list of strings; a declared value containing an
upper-case letter is never matched. -/
theorem can_lint_case_amended :
    (∀ s v, s ≠ "" → pyLower v = s → linter_can_lint (.single s) v = true) ∧
    (∀ xs v s, s ∈ xs → pyLower v = s → linter_can_lint (.multi xs) v = true) := by
  constructor
  · intro s v hs hv
    simp [linter_can_lint, hv, hs]
  · intro xs v s hs hv
    have hne : xs ≠ [] := List.ne_nil_of_mem hs
    simp [linter_can_lint, hv, List.isEmpty_iff, hne, hs]

/-- C7 witness: the amended statement at concrete inputs. -/
theorem can_lint_case_amended_w :
    linter_can_lint (.single "python") "PYTHON" = true ∧
    linter_can_lint (.multi ["ruby", "python"]) "PyThOn" = true :=
  ⟨can_lint_case_amended.1 "python" "PYTHON" (by decide) (by decide),
   can_lint_case_amended.2 ["ruby", "python"] "PyThOn" "python" (by decide) (by decide)⟩

/-- C8 counterexample: a successful match whose pattern has an error group
that did not participate carries None for it in the groupdict; the dict
update copies that None over the empty-string default, so the normalized
error field is None — the error field can be null, contrary to the claim. -/
theorem split_match_error_none_value :
    split_match (some exGd8) = some (.matched 2 .vNone .vNone .vNone .vNone) ∧
    (split_match (some exGd8)).map errField = some PyVal.vNone ∧
    PyVal.vNone ≠ PyVal.vStr "" := by decide

/-- C8 amended: each of the five logical groups defaults to its absent value
when the pattern lacks that group (line, col, type and near default to None,
error to the empty string), so the error field is the empty string whenever
the pattern has no error group; but when the error group exists and does not
participate in the match, the field is None rather than the empty string. -/
theorem split_match_defaults_amended :
    (∀ gd ls n, gd.find? (fun p => p.1 == "line") = some ("line", PyVal.vStr ls) →
      pyParseInt? ls = some n →
      gd.find? (fun p => p.1 == "col") = none →
      gd.find? (fun p => p.1 == "type") = none →
      gd.find? (fun p => p.1 == "error") = none →
      gd.find? (fun p => p.1 == "near") = none →
      split_match (some gd) =
        some (.matched (n - 1) .vNone .vNone (.vStr "") .vNone)) ∧
    (split_match (some exGd8)).map errField = some PyVal.vNone := by
  constructor
  · intro gd ls n hline hn hcol htype herr hnear
    simp [split_match, lookupDefault, hline, hcol, htype, herr, hnear, pyIntOf,
      hn, pyTruthy]
  · decide

/-- C8 witness: the amended defaults at a concrete one-group pattern. -/
theorem split_match_defaults_amended_w :
    split_match (some [("line", PyVal.vStr "3")]) =
      some (.matched 2 .vNone .vNone (.vStr "") .vNone) :=
  split_match_defaults_amended.1 [("line", PyVal.vStr "3")] "3" 3
    (by decide) (by decide) (by decide) (by decide) (by decide) (by decide)

/-- C10: when the pattern has a line group that did not participate in the
match, its groupdict value None overrides the default and int(None) raises,
so split_match raises rather than yielding an empty RawMatch or skipping. -/
theorem split_match_raises_on_none_line :
    ∀ gd, gd.find? (fun p => p.1 == "line") = some ("line", PyVal.vNone) →
      split_match (some gd) = none ∧
      split_match (some gd) ≠ some SplitResult.noMatch := by
  intro gd h
  refine ⟨?_, ?_⟩ <;> simp [split_match, lookupDefault, h, pyIntOf]

/-- C10 witness: the raising behaviour at a concrete groupdict. -/
theorem split_match_raises_on_none_line_w :
    split_match (some [("line", PyVal.vNone)]) = none ∧
    split_match (some [("line", PyVal.vNone)]) ≠ some SplitResult.noMatch :=
  split_match_raises_on_none_line [("line", PyVal.vNone)] (by decide)

/-- C9 counterexample: an empty dict is a non-None defaults mapping, yet
get_settings leaves it unchanged, because cls.defaults or the fallback takes
the falsy branch for an empty dict: the user override is merged into a fresh
dict, not into the shared defaults attribute. -/
theorem get_settings_empty_defaults_not_mutated :
    (get_settings (some []) [("L", [("a", "1")])] "L").2 = some [] ∧
    (some ([] : SDict)) ≠ some [("a", "1")] ∧
    (get_settings (some []) [("L", [("a", "1")])] "L").1 = [("a", "1")] := by
  decide

/-- C9 amended: when the class declares a non-empty (hence truthy) defaults
mapping, the settings variable aliases it and the update writes through the
shared dict: the returned settings and the class defaults attribute after the
call are both the in-place merge of the user's per-checker settings into the
declared defaults, so user overrides persist in defaults across subsequent
calls and instances; an empty or None defaults mapping is replaced by a fresh
dict and the attribute is left untouched. -/
theorem get_settings_mutates_nonempty_defaults :
    ∀ d u n, d ≠ [] →
      (get_settings (some d) u n).2 = some (sdictUpdate d (userSettingsFor u n)) ∧
      (get_settings (some d) u n).1 = sdictUpdate d (userSettingsFor u n) := by
  intro d u n hd
  simp [get_settings, List.isEmpty_iff, hd]

/-- C9 witness: the in-place merge at concrete defaults and user settings. -/
theorem get_settings_mutates_nonempty_defaults_w :
    (get_settings (some [("a", "0"), ("b", "2")]) [("L", [("a", "1")])] "L").2 =
      some (sdictUpdate [("a", "0"), ("b", "2")]
        (userSettingsFor [("L", [("a", "1")])] "L")) ∧
    (get_settings (some [("a", "0"), ("b", "2")]) [("L", [("a", "1")])] "L").1 =
      sdictUpdate [("a", "0"), ("b", "2")]
        (userSettingsFor [("L", [("a", "1")])] "L") :=
  get_settings_mutates_nonempty_defaults [("a", "0"), ("b", "2")]
    [("L", [("a", "1")])] "L" (by decide)

/-- C5: lint raises NotImplementedError (a visible contract violation) when
any of language, cmd or pattern is empty, leaving the diagnostics untouched;
and when a callable cmd resolves to an empty command, lint returns without
running and without modifying the diagnostic state. -/
theorem lint_contract_violation_and_skip :
    (∀ (l : LinterV) (run : List String → String → String),
      (l.language = "" ∨ l.cmdA = .val (.s "") ∨ l.cmdA = .val (.l []) ∨
        l.regexA = .raw "") →
      lintRun l run = (.raisedNotImplemented, l.errors)) ∧
    (∀ (l : LinterV) (run : List String → String → String) (f : Unit → CmdVal),
      l.cmdA = .fn f → cmdValTruthy (f ()) = false →
      l.language ≠ "" → regexTruthy l.regexA = true →
      lintRun l run = (.skippedNoCmd, l.errors)) := by
  constructor
  · intro l run h
    rcases h with h | h | h | h <;>
      simp [lintRun, h, cmdAttrTruthy, cmdValTruthy, regexTruthy]
  · intro l run f hf hempty hlang hregex
    simp [lintRun, hf, cmdAttrTruthy, resolveCmd, hempty, hlang, hregex]

/-- C5 witness: the contract violation and the empty-command skip at
concrete linters. -/
theorem lint_contract_violation_and_skip_w :
    lintRun exL5 (fun _ _ => "out") = (.raisedNotImplemented, exL5.errors) ∧
    lintRun exL5f (fun _ _ => "out") = (.skippedNoCmd, exL5f.errors) :=
  ⟨lint_contract_violation_and_skip.1 exL5 (fun _ _ => "out") (Or.inl rfl),
   lint_contract_violation_and_skip.2 exL5f (fun _ _ => "out") (fun _ => .s "")
     rfl (by decide) (by decide) (by decide)⟩

/-- C4 counterexample: with a pattern that failed to compile, the regex
attribute is still the raw pattern string, so it passes the truthiness
contract check in lint, and applying the pattern to non-empty output raises
an attribute error — the failure does not only disable the checker, and the
subsequent lint run does raise, contrary to the claim. -/
theorem lint_raises_on_uncompiled_pattern :
    init_regex "(" none = (.raw "(", true) ∧
    (lintRun exL4 (fun _ _ => "output")).1 = .raisedAttributeError ∧
    isRaise (lintRun exL4 (fun _ _ => "output")).1 = true :=
  ⟨rfl, rfl, rfl⟩

/-- C4 amended: a pattern compilation failure at construction is caught
(construction completes and a diagnostic log entry is recorded), but the
checker is not disabled: the regex attribute keeps the raw pattern string,
and a subsequent lint whose command resolves and whose run yields non-empty
output raises an attribute error when extraction applies the pattern. -/
theorem pattern_compile_failure_amended :
    (∀ p, p ≠ "" → init_regex p none = (.raw p, true)) ∧
    (∀ (l : LinterV) (run : List String → String → String) (p : String),
      l.regexA = .raw p → p ≠ "" → l.language ≠ "" →
      cmdValTruthy (resolveCmd l.cmdA) = true →
      run (cmdToList (resolveCmd l.cmdA)) l.code ≠ "" →
      (lintRun l run).1 = .raisedAttributeError) := by
  constructor
  · intro p hp
    simp [init_regex, hp]
  · intro l run p hr hp hlang hcmd hout
    have hca : cmdAttrTruthy l.cmdA = true := by
      cases h : l.cmdA with
      | val v => simpa [cmdAttrTruthy, resolveCmd, h] using hcmd
      | fn f => simp [cmdAttrTruthy]
    simp [lintRun, hr, hlang, hca, hcmd, regexTruthy, hp, hout]

/-- C4 witness: the amended behaviour at a concrete broken-pattern linter. -/
theorem pattern_compile_failure_amended_w :
    init_regex "(" none = (.raw "(", true) ∧
    (lintRun exL4 (fun _ _ => "boom")).1 = .raisedAttributeError :=
  ⟨pattern_compile_failure_amended.1 "(" (by decide),
   pattern_compile_failure_amended.2 exL4 (fun _ _ => "boom") "(" rfl
     (by decide) (by decide) (by decide) (by decide)⟩

/-- C6: assignment is a no-op when the view's current non-empty instance set
contains an instance recording the resolved syntax and reassignment is not
forced: the map is returned unchanged, so the same instance identities
remain and nothing is recreated or replaced. -/
theorem assign_noop_on_same_syn :
    ∀ (languages : List RegCls) (m : LintersMap) (vid : Nat) (s0 : String)
      (fresh : Nat) (insts : List LinterInst),
      lookupVid m vid = some insts → insts ≠ [] →
      insts.any (fun l => l.syn == resolveSyn s0) = true →
      s0 ≠ "" → resolveSyn s0 ≠ "" →
      assign languages m vid (some s0) false fresh = m := by
  intro langs m vid s0 fresh insts hl hne hany hs hsyn
  simp [assign, hs, hsyn, hl, List.isEmpty_iff, hne, hany]

/-- C6 witness: the no-op at a concrete map already holding a python
instance for the resolved syntax. -/
theorem assign_noop_on_same_syn_w :
    assign [] exMap6 1 (some "Packages/Python/python.tmLanguage") false 0 = exMap6 :=
  assign_noop_on_same_syn [] exMap6 1 "Packages/Python/python.tmLanguage" 0
    [exInst6] (by decide) (by decide) (by decide) (by decide) (by decide)

/-- Elements that are disabled are copied unchanged by the whole-buffer loop,
whether the loop completes or aborts before or after reaching them. -/
theorem pass1_keeps_disabled (run : List String → String → String) (code : String) :
    ∀ (ls : List LinterV) (i : Nat) (l : LinterV),
      ls[i]? = some l → l.disable = true →
      (pass1 run code ls).1[i]? = some l := by
  intro ls
  induction ls with
  | nil => intro i l h _; simp at h
  | cons hd tl ih =>
    intro i l h hdis
    cases i with
    | zero =>
      simp only [List.getElem?_cons_zero, Option.some.injEq] at h
      subst h
      simp [pass1, hdis]
    | succ n =>
      simp only [List.getElem?_cons_succ] at h
      by_cases h1 : hd.disable
      · simp only [pass1, h1, if_true]
        simpa using ih n l h hdis
      · by_cases h2 : selTruthy hd.sel
        · simp only [pass1, h1, h2]
          simpa using ih n l h hdis
        · simp only [pass1, h1, h2]
          by_cases h3 : isRaise (lintRun (resetL code hd) run).1
          · simp [h3, h]
          · simp only [h3, Bool.false_eq_true, if_false, List.getElem?_cons_succ]
            exact ih n l h hdis

/-- Elements with a falsy selector are copied unchanged by the selector loop,
whether the loop completes or aborts before or after reaching them. -/
theorem pass2_keeps_unscoped (run : List String → String → String)
    (secs : List (String × List Region)) (code : String) :
    ∀ (ls : List LinterV) (i : Nat) (l : LinterV),
      ls[i]? = some l → selTruthy l.sel = false →
      (pass2 run secs code ls).1[i]? = some l := by
  intro ls
  induction ls with
  | nil => intro i l h _; simp at h
  | cons hd tl ih =>
    intro i l h hsel
    cases i with
    | zero =>
      simp only [List.getElem?_cons_zero, Option.some.injEq] at h
      subst h
      simp [pass2, hsel]
    | succ n =>
      simp only [List.getElem?_cons_succ] at h
      by_cases h1 : selTruthy hd.sel
      · simp only [pass2, h1, if_true]
        cases hf : secs.find? (fun p => p.1 == selName hd.sel) with
        | none =>
          simp only [List.getElem?_cons_succ]
          exact ih n l h hsel
        | some pr =>
          by_cases h2 : (lintRegions run (resetL code hd) code pr.2 []).2
          · simp [h2, h]
          · simp only [h2, Bool.false_eq_true, if_false, List.getElem?_cons_succ]
            exact ih n l h hsel
      · simp only [pass2, h1]
        simpa using ih n l h hsel

/-- C3 counterexample: a disabled selector-scoped checker is reset and run by
lint_view — the second loop over selectors carries no disable check — so its
previously recorded diagnostic map is replaced, contrary to the claim that a
disabled checker is skipped entirely regardless of scoping. -/
theorem lint_view_disabled_scoped_runs :
    exL3.disable = true ∧ selTruthy exL3.sel = true ∧
    exL3.errors = [(0, [(0, "old")])] ∧
    (lint_view exRun3 exSecs3 "abc" [exL3])[0]?.map LinterV.errors =
      some [(1, [(2, "msg")])] ∧
    ([(1, [(2, "msg")])] : ErrMap) ≠ [(0, [(0, "old")])] := by decide

/-- C3 amended: a lint_view pass skips a disabled whole-buffer checker
entirely — it is neither reset nor run and its instance, including its
recorded diagnostic map, is left unchanged — but a disabled selector-scoped
checker is not skipped: when its selector has sections it is reset and run,
and its diagnostic map is replaced by the merged region result, as the
concrete disabled scoped checker shows. -/
theorem lint_view_disable_gating_amended :
    (∀ (run : List String → String → String) (secs : List (String × List Region))
      (code : String) (ls : List LinterV) (i : Nat) (l : LinterV),
      ls[i]? = some l → l.disable = true → selTruthy l.sel = false →
      (lint_view run secs code ls)[i]? = some l) ∧
    (lint_view exRun3 exSecs3 "abc" [exL3])[0]?.map LinterV.errors =
      some [(1, [(2, "msg")])] := by
  constructor
  · intro run secs code ls i l h hdis hsel
    unfold lint_view
    by_cases hg : (code == "" || ls.isEmpty) = true
    · simp [hg, h]
    · simp only [hg, Bool.false_eq_true, if_false]
      by_cases hab : (pass1 run code ls).2
      · simp only [hab, if_true]
        exact pass1_keeps_disabled run code ls i l h hdis
      · simp only [hab, Bool.false_eq_true, if_false]
        exact pass2_keeps_unscoped run secs code _ i l
          (pass1_keeps_disabled run code ls i l h hdis) hsel
  · decide

/-- C3 witness: the unchanged disabled whole-buffer instance at a concrete
pass. -/
theorem lint_view_disable_gating_amended_w :
    (lint_view exRun3 exSecs3 "abc" [exL3b])[0]? = some exL3b :=
  lint_view_disable_gating_amended.1 exRun3 exSecs3 "abc" [exL3b] 0 exL3b
    rfl rfl rfl

theorem countTabs_cons (c : Char) (cs : List Char) :
    countTabs (c :: cs) = (if c = '\t' then 1 else 0) + countTabs cs := by
  by_cases h : c = '\t' <;>
    simp [countTabs, List.filter_cons, h, Nat.add_comm]

theorem range_find?_succ (n : Nat) (p : Nat → Bool) :
    (List.range (n + 1)).find? p =
      if p 0 then some 0
      else ((List.range n).find? (fun j => p (j + 1))).map Nat.succ := by
  rw [List.range_succ_eq_map]
  by_cases h0 : p 0
  · rw [List.find?_cons_of_pos _ h0]
    simp [h0]
  · rw [List.find?_cons_of_neg _ h0]
    simp only [h0, if_false]
    rw [List.find?_map]
    rfl

theorem tab_adjust_find (tw : Nat) (col : Int) :
    ∀ (cs : List Char) (i diff : Nat),
      tab_adjust tw cs i diff col =
        match (List.range cs.length).find? (fun j =>
          decide (col - ((diff : Int) + ((tw - 1 : Nat) : Int) *
            (countTabs (cs.take (j + 1)) : Int)) ≤ ((i + j : Nat) : Int))) with
        | some j => ((i + j : Nat) : Int)
        | none => col := by
  intro cs
  induction cs with
  | nil =>
    intro i diff
    simp [tab_adjust]
  | cons c rest ih =>
    intro i diff
    simp only [tab_adjust, List.length_cons]
    set D : Nat := if c = '\t' then diff + (tw - 1) else diff with hD
    have hdInt : (D : Int) = (diff : Int) + ((tw - 1 : Nat) : Int) *
        (((if c = '\t' then (1 : Nat) else 0) : Nat) : Int) := by
      rw [hD]
      by_cases hc : c = '\t' <;> simp [hc]
    rw [range_find?_succ]
    have hp0 : (decide (col - ((diff : Int) + ((tw - 1 : Nat) : Int) *
          (countTabs ((c :: rest).take (0 + 1)) : Int)) ≤ ((i + 0 : Nat) : Int)))
        = decide (col - (D : Int) ≤ (i : Int)) := by
      simp only [decide_eq_decide]
      have h1 : (diff : Int) + ((tw - 1 : Nat) : Int) *
          (countTabs ((c :: rest).take (0 + 1)) : Int) = (D : Int) := by
        rw [List.take_succ_cons, List.take_zero, countTabs_cons, hdInt]
        simp [countTabs]
      rw [h1]
      norm_num
    have hps : (fun j => decide (col - ((diff : Int) + ((tw - 1 : Nat) : Int) *
          (countTabs ((c :: rest).take ((j + 1) + 1)) : Int)) ≤ ((i + (j + 1) : Nat) : Int)))
        = (fun j => decide (col - ((D : Int)
            + ((tw - 1 : Nat) : Int) * (countTabs (rest.take (j + 1)) : Int))
            ≤ (((i + 1) + j : Nat) : Int))) := by
      funext j
      simp only [decide_eq_decide]
      have h1 : (diff : Int) + ((tw - 1 : Nat) : Int) *
          (countTabs ((c :: rest).take ((j + 1) + 1)) : Int) =
          (D : Int) + ((tw - 1 : Nat) : Int) * (countTabs (rest.take (j + 1)) : Int) := by
        rw [List.take_succ_cons, countTabs_cons, hdInt]
        push_cast
        ring
      have h2 : ((i + (j + 1) : Nat) : Int) = (((i + 1) + j : Nat) : Int) := by
        push_cast
        ring
      rw [h1, h2]
    simp only [hp0, hps]
    by_cases hbr : col - (D : Int) ≤ (i : Int)
    · rw [if_pos hbr, if_pos (decide_eq_true hbr)]
      norm_num
    · rw [if_neg hbr, if_neg (by simpa using hbr)]
      rw [ih (i + 1) D]
      cases hf : (List.range rest.length).find? (fun j =>
          decide (col - ((D : Int)
            + ((tw - 1 : Nat) : Int) * (countTabs (rest.take (j + 1)) : Int))
            ≤ (((i + 1) + j : Nat) : Int))) with
      | none => rfl
      | some j =>
        simp only [Option.map_some']
        norm_cast
        omega

theorem correct_col_eq_spec :
    ∀ (tw : Nat) (line : String) (col : Int),
      correct_col tw line col = correctColumn_spec tw line col := by
  intro tw line col
  unfold correct_col correctColumn_spec
  by_cases h : 1 < tw
  · simp only [h, if_true]
    rw [tab_adjust_find]
    have hp : (fun j => decide (col - (((0 : Nat) : Int) + ((tw - 1 : Nat) : Int) *
          (countTabs (line.toList.take (j + 1)) : Int)) ≤ ((0 + j : Nat) : Int)))
        = (fun i => decide (col - ((tw - 1 : Nat) : Int) *
          (countTabs (line.toList.take (i + 1)) : Int) ≤ ((i : Nat) : Int))) := by
      funext j
      simp only [decide_eq_decide]
      norm_num
    rw [hp]
    cases hf : (List.range line.toList.length).find? (fun i =>
        decide (col - ((tw - 1 : Nat) : Int) *
          (countTabs (line.toList.take (i + 1)) : Int) ≤ ((i : Nat) : Int))) with
    | none => rfl
    | some j => norm_num
  · simp [h]

/-- C2 counterexample: for the line of a tab followed by foo, declared tab
width 4 and raw column 5, the walk stops at character index 2 (the delta is 3
after the tab and 5 minus 3 is at most 2 first at i equal 2), so the
corrected column is 2, not the 4 the claim states. -/
theorem correct_col_example_value :
    correct_col 4 "\tfoo" 5 = 2 ∧ correct_col 4 "\tfoo" 5 ≠ 4 := by decide

/-- C2 amended: column correction follows the stated algorithm — proved as
the equality of the source loop with the declarative first-index reading of
the walk (accumulate tab width minus 1 per tab seen, stop at the first index
i with rawColumn minus delta at most i, leave the column unchanged when no
index qualifies or the declared tab width is at most 1) — and in particular,
for the line of a tab followed by foo, declared tab width 4 and raw column 5,
the corrected column equals 2. -/
theorem correct_col_matches_spec_walk :
    (∀ (tw : Nat) (line : String) (col : Int),
      correct_col tw line col = correctColumn_spec tw line col) ∧
    correct_col 4 "\tfoo" 5 = 2 :=
  ⟨correct_col_eq_spec, by decide⟩
